import Mathlib

/-!
Shallow embedding of `opencensus/ext/azure/metrics_exporter/__init__.py`
(class `MetricsExporter` and the module helpers), together with proofs of
the specification claims about it.  Python objects become Lean structures,
the per-batch export loop becomes a recursive function that emits a trace
of observable events, and Python exceptions (IndexError from `[0]`
indexing, ValueError from the constructor) become `Option` / `Except`.
External collaborators that are not part of the embedded file
(`common_utils.window`, `utils.validate_instrumentation_key`,
`TransportMixin._transmit`, `ProcessorMixin.apply_telemetry_processors`,
`LocalFileStorage`) are modelled from the spec at their interface
boundary, as documented on each definition.
-/

namespace Azure

/-! ## Data model of the metric input (opencensus.metrics) -/

/-- Measurement timestamp; `isoformat` renders it as the ISO string the
envelope carries.  We model a datetime abstractly by its ISO rendering. -/
structure Timestamp where
  iso : String
deriving DecidableEq, Repr

def Timestamp.isoformat (t : Timestamp) : String := t.iso

/-- Wrapper around a numeric point value (`point.value.value` in the source). -/
structure PointValue where
  value : Int
deriving DecidableEq, Repr

structure Point where
  value : PointValue
  timestamp : Timestamp
deriving DecidableEq, Repr

structure LabelValue where
  value : Option String
deriving DecidableEq, Repr

structure LabelKey where
  key : String
deriving DecidableEq, Repr

structure TimeSeries where
  label_values : List LabelValue
  points : List Point
deriving DecidableEq, Repr

/-- The aggregation-type constants of
`opencensus.metrics.export.metric_descriptor.MetricDescriptorType`. -/
inductive MetricDescriptorType where
  | GAUGE_INT64
  | GAUGE_DOUBLE
  | GAUGE_DISTRIBUTION
  | CUMULATIVE_INT64
  | CUMULATIVE_DOUBLE
  | CUMULATIVE_DISTRIBUTION
  | SUMMARY
deriving DecidableEq, Repr

structure MetricDescriptor where
  name : String
  type : MetricDescriptorType
  label_keys : List LabelKey
deriving DecidableEq, Repr

structure Metric where
  descriptor : MetricDescriptor
  time_series : List TimeSeries
deriving DecidableEq, Repr

/-! ## Wire protocol objects (opencensus.ext.azure.common.protocol) -/

structure DataPoint where
  ns : String
  name : String
  value : Int
deriving DecidableEq, Repr

structure MetricData where
  metrics : List DataPoint
  properties : List (String × String)
deriving DecidableEq, Repr

structure Data where
  baseData : MetricData
  baseType : String
deriving DecidableEq, Repr

structure Envelope where
  iKey : String
  tags : List (String × String)
  time : String
  name : String
  data : Data
deriving DecidableEq, Repr

/-- Modelled from the spec: `utils.azure_monitor_context` (module
`opencensus.ext.azure.common.utils`, not under src/) — the fixed free-form
tag dictionary copied onto every envelope.  Its contents are irrelevant to
every claim; any fixed association list is a faithful stand-in. -/
def azure_monitor_context : List (String × String) :=
  [("ai.cloud.role", "role"), ("ai.internal.sdkVersion", "sdk")]

/-! ## Python dict model

`_create_properties` builds a Python `dict` by repeated assignment.  A
`dict` is an insertion-ordered map: assigning to a present key replaces
its value in place, assigning to an absent key appends the entry. -/

def dictInsert : List (String × String) → String → String → List (String × String)
  | [], k, v => [(k, v)]
  | p :: d, k, v => if p.1 = k then (k, v) :: d else p :: dictInsert d k v

def dictLookup : List (String × String) → String → Option String
  | [], _ => none
  | p :: d, k => if p.1 = k then some p.2 else dictLookup d k

/-! ## Configuration and exporter state -/

/-- The recognized configuration options (`opencensus.ext.azure.common.Options`)
that the embedded code reads.  Storage geometry options (path, max size,
retention, maintenance period) only parameterize the external
`LocalFileStorage` collaborator and are not needed by any claim. -/
structure Options where
  instrumentation_key : String
  export_interval : Int
  max_batch_size : Int
  enable_local_storage : Bool
  minimum_retry_interval : Int
deriving DecidableEq, Repr

/-- Modelled from the spec: `utils.validate_instrumentation_key`
(module `opencensus.ext.azure.common.utils`, not under src/) — the
instrumentation identity key is required and validated non-empty /
well-formed; we model well-formedness by nonemptiness. -/
def validate_instrumentation_key (key : String) : Bool :=
  key != ""

inductive ConfigError where
  | invalidInstrumentationKey
  | invalidMaxBatchSize
deriving DecidableEq, Repr

/-- State of a `MetricsExporter`.  `storage` records whether the
constructor created a `LocalFileStorage` (Python truthiness of
`self.storage`); `exporter_thread` records whether a worker-thread handle
is attached (Python truthiness of `self.exporter_thread`). -/
structure MetricsExporter where
  options : Options
  is_stats : Bool
  export_interval : Int
  max_batch_size : Int
  storage : Bool
  exporter_thread : Bool
deriving DecidableEq, Repr

/-- Modelled from the spec: `TransportMixin._is_stats_exporter`
(not under src/) — whether this exporter is the self-monitoring
(statsbeat) instance. -/
def MetricsExporter.is_stats_exporter (ex : MetricsExporter) : Bool :=
  ex.is_stats

/-- `MetricsExporter.__init__`: validates the instrumentation key, then the
maximum batch size, and only then builds the exporter state.  A raised
`ValueError` is modelled as `Except.error`. -/
def MetricsExporter.init (is_stats : Bool) (options : Options) :
    Except ConfigError MetricsExporter :=
  if validate_instrumentation_key options.instrumentation_key = false then
    Except.error ConfigError.invalidInstrumentationKey
  else if options.max_batch_size ≤ 0 then
    Except.error ConfigError.invalidMaxBatchSize
  else
    Except.ok
      { options := options
        is_stats := is_stats
        export_interval := options.export_interval
        max_batch_size := options.max_batch_size
        storage := options.enable_local_storage
        exporter_thread := false }

/-! ## Batching (`common_utils.window`) -/

/-- Fuel-indexed worker for `window`; the fuel is an upper bound on the
list length and only forces termination, it never changes the result
(see `windowGo_fuel_irrel`). -/
def windowGo {α : Type} : Nat → List α → Nat → List (List α)
  | _, [], _ => []
  | 0, _ :: _, _ => []
  | fuel + 1, x :: xs, n =>
    if n = 0 then []
    else (x :: xs).take n :: windowGo fuel ((x :: xs).drop n) n

/-- Modelled from the spec: `common_utils.window` (module
`opencensus.common.utils`, not under src/) — slices an ordered sequence
into batches of size `n`, each of size `n` except possibly the last,
preserving order and yielding nothing for an empty input. -/
def window {α : Type} (l : List α) (n : Nat) : List (List α) :=
  windowGo l.length l n

/-! ## Converter (`metric_to_envelopes` and its helpers) -/

/-- `MetricsExporter._create_data_points`: one Azure `DataPoint` per
recorded point of the series, in order. -/
def MetricsExporter.create_data_points (md : MetricDescriptor)
    (ts : TimeSeries) : List DataPoint :=
  ts.points.map (fun p => { ns := md.name, name := md.name, value := p.value.value })

/-- Worker for `_create_properties`: Python iterates
`for i in range(len(label_keys))` reading `label_values[i]`, so the keys
drive the loop and an exhausted value list raises IndexError (`none`). -/
def createPropertiesGo : List LabelKey → List LabelValue →
    List (String × String) → Option (List (String × String))
  | [], _, props => some props
  | _ :: _, [], _ => none
  | lk :: ks, lv :: vs, props =>
    createPropertiesGo ks vs
      (dictInsert props lk.key
        (match lv.value with
         | none => "null"
         | some v => v))

/-- `MetricsExporter._create_properties`. -/
def MetricsExporter.create_properties (md : MetricDescriptor)
    (ts : TimeSeries) : Option (List (String × String)) :=
  createPropertiesGo md.label_keys ts.label_values []

/-- `MetricsExporter._create_envelope`. -/
def MetricsExporter.create_envelope (ex : MetricsExporter) (dp : DataPoint)
    (timestamp : Timestamp) (properties : List (String × String)) : Envelope :=
  { iKey := ex.options.instrumentation_key
    tags := azure_monitor_context
    time := timestamp.isoformat
    name := if ex.is_stats then "Statsbeat" else "Microsoft.ApplicationInsights.Metric"
    data :=
      { baseData := { metrics := [dp], properties := properties }
        baseType := "MetricData" } }

/-- One iteration of the `for time_series in metric.time_series` loop of
`metric_to_envelopes`: `_create_data_points(...)[0]` and
`time_series.points[0]` raise IndexError on an empty point list (`none`),
and `_create_properties` may raise as well. -/
def MetricsExporter.envelope_of_series (ex : MetricsExporter)
    (md : MetricDescriptor) (ts : TimeSeries) : Option Envelope := do
  let dp ← (MetricsExporter.create_data_points md ts).head?
  let p0 ← ts.points.head?
  let properties ← MetricsExporter.create_properties md ts
  some (ex.create_envelope dp p0.timestamp properties)

/-- The whole `for time_series in ...` loop: an exception anywhere aborts
the call, otherwise the envelopes are appended in series order. -/
def MetricsExporter.envelopes_of_series_list (ex : MetricsExporter)
    (md : MetricDescriptor) : List TimeSeries → Option (List Envelope)
  | [] => some []
  | ts :: rest => do
    let e ← ex.envelope_of_series md ts
    let es ← ex.envelopes_of_series_list md rest
    some (e :: es)

/-- `MetricsExporter.metric_to_envelopes`: histogram-typed metrics are
skipped wholesale and yield the initial empty envelope list. -/
def MetricsExporter.metric_to_envelopes (ex : MetricsExporter) (m : Metric) :
    Option (List Envelope) :=
  if m.descriptor.type ≠ MetricDescriptorType.CUMULATIVE_DISTRIBUTION then
    ex.envelopes_of_series_list m.descriptor m.time_series
  else
    some []

/-- The `envelopes.extend(self.metric_to_envelopes(metric))` accumulation
at the top of `export_metrics`. -/
def MetricsExporter.gather_envelopes (ex : MetricsExporter) :
    List Metric → Option (List Envelope)
  | [] => some []
  | m :: ms => do
    let es ← ex.metric_to_envelopes m
    let rest ← ex.gather_envelopes ms
    some (es ++ rest)

/-! ## Transmission outcomes and the export cycle -/

/-- Modelled from the spec: `TransportStatusCode`
(`opencensus.ext.azure.common.transport`, not under src/) — the outcome
taxonomy of one transmission attempt: delivered, transient failure
(retry), permanent failure (drop), and the statsbeat shutdown signal. -/
inductive TransportStatusCode where
  | SUCCESS
  | RETRY
  | DROP
  | STATSBEAT_SHUTDOWN
deriving DecidableEq, Repr

/-- Observable effects of one `export_metrics` call, in program order:
`transmit batch` is a `self._transmit(batch)` call, `store batch i` is a
`self.storage.put(batch, i)` call, `statsbeatShutdown` is the
`statsbeat.shutdown_statsbeat_metrics()` call, and `drainStorage` is the
`self._transmit_from_storage()` call. -/
inductive ExportEvent where
  | transmit (batch : List Envelope)
  | store (batch : List Envelope) (retry_interval : Int)
  | statsbeatShutdown
  | drainStorage
deriving DecidableEq, Repr

def ExportEvent.isTransmit : ExportEvent → Bool
  | .transmit _ => true
  | _ => false

/-- The `for batch in batched_envelopes` loop of `export_metrics`,
parameterized by the external collaborators: `P` is
`ProcessorMixin.apply_telemetry_processors` and `T` is
`TransportMixin._transmit` (both not under src/, arbitrary here).
Returns the emitted events and whether the loop ended in the early
`return` of the statsbeat-shutdown branch. -/
def exportLoop (ex : MetricsExporter) (P : List Envelope → List Envelope)
    (T : List Envelope → TransportStatusCode) :
    List (List Envelope) → List ExportEvent × Bool
  | [] => ([], false)
  | b :: rest =>
    let batch := P b
    let result := T batch
    if ex.is_stats_exporter = true ∧ result = TransportStatusCode.STATSBEAT_SHUTDOWN then
      ([ExportEvent.transmit batch, ExportEvent.statsbeatShutdown], true)
    else
      let stores :=
        if ex.storage = true ∧ result = TransportStatusCode.RETRY then
          [ExportEvent.store batch ex.options.minimum_retry_interval]
        else []
      let rest_result := exportLoop ex P T rest
      (ExportEvent.transmit batch :: (stores ++ rest_result.1), rest_result.2)

/-- `MetricsExporter.export_metrics`: gather, batch, run the per-batch
loop, and — unless the loop returned early — drain local storage when the
freshly gathered envelope count is below `options.max_batch_size`. -/
def MetricsExporter.export_metrics (ex : MetricsExporter)
    (P : List Envelope → List Envelope)
    (T : List Envelope → TransportStatusCode)
    (metrics : List Metric) : Option (List ExportEvent) :=
  match ex.gather_envelopes metrics with
  | none => none
  | some envelopes =>
    let batched := window envelopes ex.max_batch_size.toNat
    match exportLoop ex P T batched with
    | (evs, true) => some evs
    | (evs, false) =>
      some (evs ++
        (if (envelopes.length : Int) < ex.options.max_batch_size then
          [ExportEvent.drainStorage]
        else []))

/-! ## Shutdown -/

/-- Resource-release calls `shutdown` can make, in program order. -/
inductive ShutdownAction where
  | threadClose
  | threadCancel
  | storageClose
deriving DecidableEq, Repr

/-- `MetricsExporter.shutdown`: closes (primary) or cancels (statsbeat)
the worker thread when one is attached, then closes storage when storage
is attached.  It mutates no attribute, so the same exporter state is
returned unchanged alongside the emitted release actions. -/
def MetricsExporter.shutdown (e : MetricsExporter) :
    List ShutdownAction × MetricsExporter :=
  let threadActs :=
    if e.exporter_thread then
      if e.is_stats then [ShutdownAction.threadCancel]
      else [ShutdownAction.threadClose]
    else []
  let storageActs := if e.storage then [ShutdownAction.storageClose] else []
  (threadActs ++ storageActs, e)

/-! ## Lemmas about `window` -/

theorem windowGo_fuel_irrel {α : Type} (n : Nat) (hn : n ≠ 0) :
    ∀ (f1 f2 : Nat) (l : List α), l.length ≤ f1 → l.length ≤ f2 →
      windowGo f1 l n = windowGo f2 l n := by
  intro f1
  induction f1 with
  | zero =>
    intro f2 l h1 h2
    have hl : l = [] := List.eq_nil_of_length_eq_zero (Nat.le_zero.mp h1)
    subst hl
    cases f2 <;> rfl
  | succ f ih =>
    intro f2 l h1 h2
    cases l with
    | nil => cases f2 <;> rfl
    | cons x xs =>
      cases f2 with
      | zero => simp at h2
      | succ g =>
        simp only [windowGo, if_neg hn]
        congr 1
        apply ih
        · simp only [List.length_drop, List.length_cons]
          simp only [List.length_cons] at h1
          omega
        · simp only [List.length_drop, List.length_cons]
          simp only [List.length_cons] at h2
          omega

theorem window_nil {α : Type} (n : Nat) : window ([] : List α) n = [] := rfl

theorem window_cons {α : Type} (l : List α) (n : Nat) (hl : l ≠ []) (hn : n ≠ 0) :
    window l n = l.take n :: window (l.drop n) n := by
  cases l with
  | nil => exact absurd rfl hl
  | cons x xs =>
    show windowGo (xs.length + 1) (x :: xs) n = _
    simp only [windowGo, if_neg hn]
    congr 1
    apply windowGo_fuel_irrel n hn
    · simp only [List.length_drop, List.length_cons]; omega
    · exact Nat.le_refl _

theorem window_join {α : Type} (l : List α) (n : Nat) (hn : n ≠ 0) :
    (window l n).flatten = l := by
  by_cases hl : l = []
  · subst hl; rfl
  · rw [window_cons l n hl hn]
    simp only [List.flatten_cons, window_join (l.drop n) n hn, List.take_append_drop]
termination_by l.length
decreasing_by
  simp only [List.length_drop]
  exact Nat.sub_lt (List.length_pos.mpr hl) (Nat.pos_of_ne_zero hn)

theorem window_length {α : Type} (l : List α) (n : Nat) (hn : n ≠ 0) :
    (window l n).length = (l.length + n - 1) / n := by
  by_cases hl : l = []
  · subst hl
    simp only [window_nil, List.length_nil]
    exact (Nat.div_eq_of_lt (by omega)).symm
  · rw [window_cons l n hl hn]
    have ih := window_length (l.drop n) n hn
    simp only [List.length_cons, ih, List.length_drop]
    have hL : 0 < l.length := List.length_pos.mpr hl
    rcases Nat.lt_or_ge n l.length with h | h
    · have e1 : l.length + n - 1 = (l.length - 1) + n := by omega
      have e2 : l.length - n + n - 1 = l.length - 1 := by omega
      rw [e1, e2, Nat.add_div_right _ (Nat.pos_of_ne_zero hn)]
    · have e2 : l.length - n = 0 := by omega
      rw [e2]
      have h1 : (0 + n - 1) / n = 0 := Nat.div_eq_of_lt (by omega)
      have h2 : (l.length + n - 1) / n = 1 :=
        Nat.div_eq_of_lt_le (by omega) (by omega)
      rw [h1, h2]
termination_by l.length
decreasing_by
  simp only [List.length_drop]
  exact Nat.sub_lt (List.length_pos.mpr hl) (Nat.pos_of_ne_zero hn)

theorem window_mem_sizes {α : Type} (l : List α) (n : Nat) (hn : n ≠ 0) :
    ∀ b ∈ window l n, b ≠ [] ∧ b.length ≤ n := by
  by_cases hl : l = []
  · subst hl; intro b hb; rw [window_nil] at hb; exact absurd hb (List.not_mem_nil b)
  · rw [window_cons l n hl hn]
    intro b hb
    rcases List.mem_cons.mp hb with h | h
    · subst h
      have hlen : (l.take n).length = min n l.length := List.length_take n l
      constructor
      · apply List.length_pos.mp
        rw [hlen]
        have := List.length_pos.mpr hl
        omega
      · rw [hlen]; exact Nat.min_le_left _ _
    · exact window_mem_sizes (l.drop n) n hn b h
termination_by l.length
decreasing_by
  simp only [List.length_drop]
  exact Nat.sub_lt (List.length_pos.mpr hl) (Nat.pos_of_ne_zero hn)

theorem window_get_length {α : Type} (l : List α) (n : Nat) (hn : n ≠ 0) :
    ∀ (i : Nat) (h : i + 1 < (window l n).length),
      ((window l n).get ⟨i, Nat.lt_of_succ_lt h⟩).length = n := by
  by_cases hl : l = []
  · subst hl; intro i h; rw [window_nil] at h; simp at h
  · rw [window_cons l n hl hn]
    intro i h
    cases i with
    | zero =>
      have hrest : window (l.drop n) n ≠ [] := by
        intro hcon
        rw [List.length_cons, hcon] at h
        simp at h
      have hdrop : l.drop n ≠ [] := by
        intro hcon; rw [hcon] at hrest; exact hrest (window_nil n)
      have hlt : n < l.length := by
        have hpos := List.length_pos.mpr hdrop
        rw [List.length_drop] at hpos
        omega
      show (l.take n).length = n
      rw [List.length_take]
      omega
    | succ j =>
      have h' : j + 1 < (window (l.drop n) n).length := by
        rw [List.length_cons] at h; omega
      exact window_get_length (l.drop n) n hn j h'
termination_by l.length
decreasing_by
  simp only [List.length_drop]
  exact Nat.sub_lt (List.length_pos.mpr hl) (Nat.pos_of_ne_zero hn)

/-! ## Lemmas about the export loop -/

theorem exportLoop_nil (ex : MetricsExporter) (P : List Envelope → List Envelope)
    (T : List Envelope → TransportStatusCode) :
    exportLoop ex P T [] = ([], false) := rfl

theorem exportLoop_cons_shutdown (ex : MetricsExporter)
    (P : List Envelope → List Envelope) (T : List Envelope → TransportStatusCode)
    (b : List Envelope) (rest : List (List Envelope))
    (h1 : ex.is_stats_exporter = true)
    (h2 : T (P b) = TransportStatusCode.STATSBEAT_SHUTDOWN) :
    exportLoop ex P T (b :: rest) =
      ([ExportEvent.transmit (P b), ExportEvent.statsbeatShutdown], true) := by
  simp only [exportLoop]
  rw [if_pos ⟨h1, h2⟩]

theorem exportLoop_cons_continue (ex : MetricsExporter)
    (P : List Envelope → List Envelope) (T : List Envelope → TransportStatusCode)
    (b : List Envelope) (rest : List (List Envelope))
    (h : ¬(ex.is_stats_exporter = true ∧
        T (P b) = TransportStatusCode.STATSBEAT_SHUTDOWN)) :
    exportLoop ex P T (b :: rest) =
      (ExportEvent.transmit (P b) ::
        ((if ex.storage = true ∧ T (P b) = TransportStatusCode.RETRY then
            [ExportEvent.store (P b) ex.options.minimum_retry_interval]
          else []) ++ (exportLoop ex P T rest).1),
       (exportLoop ex P T rest).2) := by
  simp only [exportLoop]
  rw [if_neg h]

theorem exportLoop_no_drain (ex : MetricsExporter)
    (P : List Envelope → List Envelope) (T : List Envelope → TransportStatusCode) :
    ∀ batches : List (List Envelope),
      ExportEvent.drainStorage ∉ (exportLoop ex P T batches).1 := by
  intro batches
  induction batches with
  | nil => simp [exportLoop_nil]
  | cons b rest ih =>
    by_cases h : ex.is_stats_exporter = true ∧
        T (P b) = TransportStatusCode.STATSBEAT_SHUTDOWN
    · rw [exportLoop_cons_shutdown ex P T b rest h.1 h.2]
      simp
    · rw [exportLoop_cons_continue ex P T b rest h]
      intro hmem
      rcases List.mem_cons.mp hmem with h1 | h1
      · exact ExportEvent.noConfusion h1
      rcases List.mem_append.mp h1 with h2 | h2
      · by_cases hs : ex.storage = true ∧ T (P b) = TransportStatusCode.RETRY
        · rw [if_pos hs] at h2
          exact ExportEvent.noConfusion (List.mem_singleton.mp h2)
        · rw [if_neg hs] at h2
          exact absurd h2 (List.not_mem_nil _)
      · exact ih h2

theorem exportLoop_store_inv (ex : MetricsExporter)
    (P : List Envelope → List Envelope) (T : List Envelope → TransportStatusCode) :
    ∀ (batches : List (List Envelope)) (b : List Envelope) (r : Int),
      ExportEvent.store b r ∈ (exportLoop ex P T batches).1 →
        r = ex.options.minimum_retry_interval ∧ ex.storage = true ∧
        T b = TransportStatusCode.RETRY ∧
        ExportEvent.transmit b ∈ (exportLoop ex P T batches).1 := by
  intro batches
  induction batches with
  | nil => intro b r h; simp [exportLoop_nil] at h
  | cons b0 rest ih =>
    intro b r h
    by_cases hc : ex.is_stats_exporter = true ∧
        T (P b0) = TransportStatusCode.STATSBEAT_SHUTDOWN
    · rw [exportLoop_cons_shutdown ex P T b0 rest hc.1 hc.2] at h
      rcases List.mem_cons.mp h with h1 | h1
      · exact ExportEvent.noConfusion h1
      · exact ExportEvent.noConfusion (List.mem_singleton.mp h1)
    · rw [exportLoop_cons_continue ex P T b0 rest hc] at h ⊢
      rcases List.mem_cons.mp h with h1 | h1
      · exact ExportEvent.noConfusion h1
      rcases List.mem_append.mp h1 with h2 | h2
      · by_cases hs : ex.storage = true ∧ T (P b0) = TransportStatusCode.RETRY
        · rw [if_pos hs] at h2
          have h3 := List.mem_singleton.mp h2
          have hb : b = P b0 ∧ r = ex.options.minimum_retry_interval := by
            cases h3; exact ⟨rfl, rfl⟩
          refine ⟨hb.2, hs.1, hb.1 ▸ hs.2, ?_⟩
          rw [hb.1]
          exact List.mem_cons_self _ _
        · rw [if_neg hs] at h2
          exact absurd h2 (List.not_mem_nil _)
      · obtain ⟨hr, hst, hT, hmem⟩ := ih b r h2
        refine ⟨hr, hst, hT, ?_⟩
        apply List.mem_cons_of_mem
        exact List.mem_append.mpr (Or.inr hmem)

theorem exportLoop_retry_is_stored (ex : MetricsExporter)
    (P : List Envelope → List Envelope) (T : List Envelope → TransportStatusCode) :
    ∀ (batches : List (List Envelope)) (b : List Envelope),
      ExportEvent.transmit b ∈ (exportLoop ex P T batches).1 →
      ex.storage = true → T b = TransportStatusCode.RETRY →
        ExportEvent.store b ex.options.minimum_retry_interval ∈
          (exportLoop ex P T batches).1 := by
  intro batches
  induction batches with
  | nil => intro b h; simp [exportLoop_nil] at h
  | cons b0 rest ih =>
    intro b h hst hT
    by_cases hc : ex.is_stats_exporter = true ∧
        T (P b0) = TransportStatusCode.STATSBEAT_SHUTDOWN
    · rw [exportLoop_cons_shutdown ex P T b0 rest hc.1 hc.2] at h
      rcases List.mem_cons.mp h with h1 | h1
      · have hb : b = P b0 := by cases h1; rfl
        rw [hb, hc.2] at hT
        exact TransportStatusCode.noConfusion hT
      · exact ExportEvent.noConfusion (List.mem_singleton.mp h1)
    · rw [exportLoop_cons_continue ex P T b0 rest hc] at h ⊢
      rcases List.mem_cons.mp h with h1 | h1
      · have hb : b = P b0 := by cases h1; rfl
        subst hb
        apply List.mem_cons_of_mem
        apply List.mem_append.mpr
        left
        rw [if_pos ⟨hst, hT⟩]
        exact List.mem_singleton.mpr rfl
      rcases List.mem_append.mp h1 with h2 | h2
      · by_cases hs : ex.storage = true ∧ T (P b0) = TransportStatusCode.RETRY
        · rw [if_pos hs] at h2
          exact ExportEvent.noConfusion (List.mem_singleton.mp h2)
        · rw [if_neg hs] at h2
          exact absurd h2 (List.not_mem_nil _)
      · apply List.mem_cons_of_mem
        exact List.mem_append.mpr (Or.inr (ih b h2 hst hT))

theorem exportLoop_no_trigger (ex : MetricsExporter)
    (P : List Envelope → List Envelope) (T : List Envelope → TransportStatusCode) :
    ∀ batches : List (List Envelope),
      (∀ b ∈ batches, ¬(ex.is_stats_exporter = true ∧
          T (P b) = TransportStatusCode.STATSBEAT_SHUTDOWN)) →
      (exportLoop ex P T batches).2 = false ∧
      (exportLoop ex P T batches).1.countP ExportEvent.isTransmit = batches.length := by
  intro batches
  induction batches with
  | nil => intro _; exact ⟨rfl, rfl⟩
  | cons b rest ih =>
    intro h
    have hcond := h b (List.mem_cons_self _ _)
    rw [exportLoop_cons_continue ex P T b rest hcond]
    obtain ⟨h1, h2⟩ := ih (fun b' hb' => h b' (List.mem_cons_of_mem _ hb'))
    refine ⟨h1, ?_⟩
    by_cases hs : ex.storage = true ∧ T (P b) = TransportStatusCode.RETRY
    · rw [if_pos hs]
      simp [List.countP_cons, List.countP_append, ExportEvent.isTransmit, h2]
    · rw [if_neg hs]
      simp [List.countP_cons, ExportEvent.isTransmit, h2]

theorem exportLoop_early_of_trigger (ex : MetricsExporter)
    (P : List Envelope → List Envelope) (T : List Envelope → TransportStatusCode)
    (hstats : ex.is_stats_exporter = true) :
    ∀ (pre : List (List Envelope)) (b : List Envelope) (post : List (List Envelope)),
      (∀ b' ∈ pre, T (P b') ≠ TransportStatusCode.STATSBEAT_SHUTDOWN) →
      T (P b) = TransportStatusCode.STATSBEAT_SHUTDOWN →
      exportLoop ex P T (pre ++ b :: post) =
        ((exportLoop ex P T pre).1 ++
          [ExportEvent.transmit (P b), ExportEvent.statsbeatShutdown], true) := by
  intro pre
  induction pre with
  | nil =>
    intro b post hpre hb
    rw [List.nil_append, exportLoop_cons_shutdown ex P T b post hstats hb]
    rfl
  | cons b0 pre' ih =>
    intro b post hpre hb
    have h0 : T (P b0) ≠ TransportStatusCode.STATSBEAT_SHUTDOWN :=
      hpre b0 (List.mem_cons_self _ _)
    have hcond : ¬(ex.is_stats_exporter = true ∧
        T (P b0) = TransportStatusCode.STATSBEAT_SHUTDOWN) := fun hc => h0 hc.2
    rw [List.cons_append,
        exportLoop_cons_continue ex P T b0 (pre' ++ b :: post) hcond,
        ih b post (fun b' hb' => hpre b' (List.mem_cons_of_mem _ hb')) hb,
        exportLoop_cons_continue ex P T b0 pre' hcond]
    simp [List.append_assoc]

/-! ## Lemmas about the dict model and `_create_properties` -/

theorem dictLookup_insert_self (d : List (String × String)) (k v : String) :
    dictLookup (dictInsert d k v) k = some v := by
  induction d with
  | nil => simp [dictInsert, dictLookup]
  | cons p d ih =>
    by_cases h : p.1 = k
    · simp [dictInsert, h, dictLookup]
    · simp [dictInsert, h, dictLookup, ih]

theorem dictLookup_insert_ne (d : List (String × String)) (k v k' : String)
    (h : k' ≠ k) :
    dictLookup (dictInsert d k v) k' = dictLookup d k' := by
  have hk : ¬(k = k') := fun hc => h hc.symm
  induction d with
  | nil => simp [dictInsert, dictLookup, hk]
  | cons p d ih =>
    by_cases hp : p.1 = k
    · simp [dictInsert, hp, dictLookup, hk]
    · simp [dictInsert, hp, dictLookup, ih]

theorem createPropertiesGo_some_of_le :
    ∀ (ks : List LabelKey) (vs : List LabelValue) (props : List (String × String)),
      ks.length ≤ vs.length → (createPropertiesGo ks vs props).isSome = true := by
  intro ks
  induction ks with
  | nil => intro vs props _; rfl
  | cons k ks ih =>
    intro vs props h
    cases vs with
    | nil => simp at h
    | cons v vs =>
      have hle : ks.length ≤ vs.length := by
        simp only [List.length_cons] at h; omega
      simpa [createPropertiesGo] using ih vs _ hle

theorem createPropertiesGo_lookup_untouched :
    ∀ (ks : List LabelKey) (vs : List LabelValue)
      (props res : List (String × String)) (k : String),
      createPropertiesGo ks vs props = some res →
      (∀ lk ∈ ks, lk.key ≠ k) →
      dictLookup res k = dictLookup props k := by
  intro ks
  induction ks with
  | nil =>
    intro vs props res k h _
    simp only [createPropertiesGo, Option.some.injEq] at h
    rw [← h]
  | cons lk ks ih =>
    intro vs props res k h hk
    cases vs with
    | nil => simp [createPropertiesGo] at h
    | cons v vs =>
      simp only [createPropertiesGo] at h
      have hrec := ih vs _ res k h (fun lk' h' => hk lk' (List.mem_cons_of_mem _ h'))
      rw [hrec]
      exact dictLookup_insert_ne props lk.key _ k
        (fun hc => hk lk (List.mem_cons_self _ _) hc.symm)

theorem createPropertiesGo_lookup_at :
    ∀ (ks : List LabelKey) (vs : List LabelValue)
      (props res : List (String × String)),
      createPropertiesGo ks vs props = some res →
      (ks.map LabelKey.key).Nodup →
      ∀ (i : Nat) (hik : i < ks.length) (hiv : i < vs.length),
        dictLookup res (ks.get ⟨i, hik⟩).key =
          some (match (vs.get ⟨i, hiv⟩).value with
                | none => "null"
                | some v => v) := by
  intro ks
  induction ks with
  | nil => intro vs props res _ _ i hik; exact absurd hik (Nat.not_lt_zero i)
  | cons lk ks ih =>
    intro vs props res h hnd i hik hiv
    cases vs with
    | nil => simp [createPropertiesGo] at h
    | cons v vs =>
      simp only [createPropertiesGo] at h
      cases i with
      | zero =>
        have hnotin : ∀ lk' ∈ ks, lk'.key ≠ lk.key := by
          intro lk' h' hc
          have hmem : lk.key ∈ ks.map LabelKey.key :=
            hc ▸ List.mem_map_of_mem LabelKey.key h'
          exact (List.nodup_cons.mp hnd).1 hmem
        have hres := createPropertiesGo_lookup_untouched ks vs _ res lk.key h hnotin
        show dictLookup res lk.key =
          some (match v.value with | none => "null" | some v => v)
        rw [hres, dictLookup_insert_self]
      | succ j =>
        have hnd' : (ks.map LabelKey.key).Nodup := (List.nodup_cons.mp hnd).2
        exact ih vs _ res h hnd' j (Nat.lt_of_succ_lt_succ hik)
          (Nat.lt_of_succ_lt_succ hiv)

/-! ## Lemmas about the converter -/

theorem envelope_of_series_none_of_no_points (ex : MetricsExporter)
    (md : MetricDescriptor) (ts : TimeSeries) (h : ts.points = []) :
    ex.envelope_of_series md ts = none := by
  simp [MetricsExporter.envelope_of_series, MetricsExporter.create_data_points, h]

theorem envelope_of_series_inv (ex : MetricsExporter) (md : MetricDescriptor)
    (ts : TimeSeries) (e : Envelope) (h : ex.envelope_of_series md ts = some e) :
    ∃ p props, ts.points.head? = some p ∧
      MetricsExporter.create_properties md ts = some props ∧
      e = ex.create_envelope { ns := md.name, name := md.name, value := p.value.value }
            p.timestamp props := by
  cases hp : ts.points with
  | nil =>
    rw [envelope_of_series_none_of_no_points ex md ts hp] at h
    exact Option.noConfusion h
  | cons p ps =>
    unfold MetricsExporter.envelope_of_series at h
    simp only [MetricsExporter.create_data_points, hp, List.map_cons, List.head?_cons,
      Option.bind_eq_bind, Option.some_bind] at h
    cases hcp : MetricsExporter.create_properties md ts with
    | none => rw [hcp] at h; exact Option.noConfusion h
    | some props =>
      rw [hcp] at h
      simp only [Option.some_bind, Option.some.injEq] at h
      exact ⟨p, props, by simp [hp], rfl, h.symm⟩

theorem envelopes_of_series_list_none (ex : MetricsExporter) (md : MetricDescriptor) :
    ∀ ls : List TimeSeries, (∃ ts ∈ ls, ts.points = []) →
      ex.envelopes_of_series_list md ls = none := by
  intro ls
  induction ls with
  | nil =>
    rintro ⟨ts, hmem, _⟩
    exact absurd hmem (List.not_mem_nil ts)
  | cons t rest ih =>
    rintro ⟨ts, hmem, hpts⟩
    rcases List.mem_cons.mp hmem with h | h
    · subst h
      simp [MetricsExporter.envelopes_of_series_list,
        envelope_of_series_none_of_no_points ex md ts hpts]
    · simp only [MetricsExporter.envelopes_of_series_list, Option.bind_eq_bind]
      rw [ih ⟨ts, h, hpts⟩]
      cases ex.envelope_of_series md t <;> rfl

theorem envelopes_of_series_list_spec (ex : MetricsExporter) (md : MetricDescriptor) :
    ∀ (ls : List TimeSeries) (envs : List Envelope),
      ex.envelopes_of_series_list md ls = some envs →
      envs.length = ls.length ∧
      ∀ (i : Nat) (hi : i < ls.length) (hi' : i < envs.length),
        ∃ p, (ls.get ⟨i, hi⟩).points.head? = some p ∧
          (envs.get ⟨i, hi'⟩).time = p.timestamp.isoformat ∧
          (envs.get ⟨i, hi'⟩).data.baseData.metrics =
            [{ ns := md.name, name := md.name, value := p.value.value }] := by
  intro ls
  induction ls with
  | nil =>
    intro envs h
    simp only [MetricsExporter.envelopes_of_series_list, Option.some.injEq] at h
    subst h
    exact ⟨rfl, fun i hi => absurd hi (Nat.not_lt_zero i)⟩
  | cons ts rest ih =>
    intro envs h
    simp only [MetricsExporter.envelopes_of_series_list, Option.bind_eq_bind] at h
    cases h0 : ex.envelope_of_series md ts with
    | none => rw [h0] at h; exact Option.noConfusion h
    | some e0 =>
      rw [h0] at h
      cases h1 : ex.envelopes_of_series_list md rest with
      | none => rw [h1] at h; exact Option.noConfusion h
      | some es =>
        rw [h1] at h
        simp only [Option.some_bind, Option.some.injEq] at h
        subst h
        obtain ⟨hlen, hrest⟩ := ih es h1
        constructor
        · simp [hlen]
        · intro i hi hi'
          cases i with
          | zero =>
            obtain ⟨p, props, hp, _, he⟩ := envelope_of_series_inv ex md ts e0 h0
            refine ⟨p, hp, ?_, ?_⟩
            · show e0.time = p.timestamp.isoformat
              rw [he]; rfl
            · show e0.data.baseData.metrics =
                [{ ns := md.name, name := md.name, value := p.value.value }]
              rw [he]; rfl
          | succ j =>
            exact hrest j (Nat.lt_of_succ_lt_succ hi) (Nat.lt_of_succ_lt_succ hi')

theorem envelopes_of_series_list_time (ex : MetricsExporter) (md : MetricDescriptor) :
    ∀ (ls : List TimeSeries) (envs : List Envelope),
      ex.envelopes_of_series_list md ls = some envs →
      ∀ e ∈ envs, ∃ ts ∈ ls, ∃ p, ts.points.head? = some p ∧
        e.time = p.timestamp.isoformat := by
  intro ls
  induction ls with
  | nil =>
    intro envs h e he
    simp only [MetricsExporter.envelopes_of_series_list, Option.some.injEq] at h
    subst h
    exact absurd he (List.not_mem_nil e)
  | cons ts rest ih =>
    intro envs h e he
    simp only [MetricsExporter.envelopes_of_series_list, Option.bind_eq_bind] at h
    cases h0 : ex.envelope_of_series md ts with
    | none => rw [h0] at h; exact Option.noConfusion h
    | some e0 =>
      rw [h0] at h
      cases h1 : ex.envelopes_of_series_list md rest with
      | none => rw [h1] at h; exact Option.noConfusion h
      | some es =>
        rw [h1] at h
        simp only [Option.some_bind, Option.some.injEq] at h
        subst h
        rcases List.mem_cons.mp he with he0 | hes
        · subst he0
          obtain ⟨p, props, hp, _, hee⟩ := envelope_of_series_inv ex md ts e h0
          exact ⟨ts, List.mem_cons_self _ _, p, hp, by rw [hee]; rfl⟩
        · obtain ⟨ts', hts', hrest⟩ := ih es h1 e hes
          exact ⟨ts', List.mem_cons_of_mem _ hts', hrest⟩

/-! ## Concrete fixtures used by witnesses and counterexamples -/

def wOptsGood : Options :=
  { instrumentation_key := "ikey", export_interval := 15, max_batch_size := 100,
    enable_local_storage := true, minimum_retry_interval := 60 }

def wExGood : MetricsExporter :=
  { options := wOptsGood, is_stats := false, export_interval := 15,
    max_batch_size := 100, storage := true, exporter_thread := false }

def wExRunning : MetricsExporter :=
  { options := wOptsGood, is_stats := false, export_interval := 15,
    max_batch_size := 100, storage := true, exporter_thread := true }

def wMdHist : MetricDescriptor :=
  { name := "h", type := MetricDescriptorType.CUMULATIVE_DISTRIBUTION,
    label_keys := [⟨"k"⟩] }

def wMetricHist : Metric :=
  { descriptor := wMdHist,
    time_series := [{ label_values := [], points := [] }] }

def wMd7 : MetricDescriptor :=
  { name := "m", type := MetricDescriptorType.GAUGE_INT64,
    label_keys := [⟨"k1"⟩, ⟨"k2"⟩] }

def wTs7 : TimeSeries :=
  { label_values := [⟨none⟩, ⟨some "v"⟩], points := [] }

def wMd7dup : MetricDescriptor :=
  { name := "m", type := MetricDescriptorType.GAUGE_INT64,
    label_keys := [⟨"a"⟩, ⟨"a"⟩] }

def wTs7dup : TimeSeries :=
  { label_values := [⟨some "1"⟩, ⟨some "2"⟩], points := [] }

/-! ## Claim theorems -/

/-- C1: for every ordered envelope sequence of length N gathered in one export cycle
and every configured maximum batch size M > 0, the batching step of `export_metrics`
(the `window` call) slices the sequence into ⌈N/M⌉ = (N + M - 1) / M batches, each
nonempty and of size at most M, every batch except possibly the last of size exactly
M, and the concatenation of the batches in transmission order is the original
sequence — order preserved, nothing dropped or duplicated before the
processor/transmit stage. -/
theorem export_batching_correct {α : Type} (l : List α) (M : Nat) (hM : 0 < M) :
    (window l M).flatten = l ∧
    (window l M).length = (l.length + M - 1) / M ∧
    (∀ (i : Nat) (h : i + 1 < (window l M).length),
      ((window l M).get ⟨i, Nat.lt_of_succ_lt h⟩).length = M) ∧
    (∀ b ∈ window l M, b ≠ [] ∧ b.length ≤ M) := by
  have hn : M ≠ 0 := Nat.pos_iff_ne_zero.mp hM
  exact ⟨window_join l M hn, window_length l M hn, window_get_length l M hn,
    window_mem_sizes l M hn⟩

/-- Witness for C1 at a concrete sequence of 7 elements and batch size 3. -/
theorem export_batching_correct_witness :
    (window [1, 2, 3, 4, 5, 6, 7] 3).flatten = [1, 2, 3, 4, 5, 6, 7] ∧
    (window [1, 2, 3, 4, 5, 6, 7] 3).length = (7 + 3 - 1) / 3 := by
  have h := export_batching_correct [1, 2, 3, 4, 5, 6, 7] 3 (by decide)
  exact ⟨h.1, h.2.1⟩

/-- C2 (amended): `shutdown` mutates no attribute of the exporter, so the state after
a second consecutive call equals the state after the first; but because there is no
idempotence guard, the second call performs exactly the same close/cancel and
storage-close calls as the first instead of being a no-op. -/
theorem shutdown_unguarded_repeats (e : MetricsExporter) :
    (MetricsExporter.shutdown e).2 = e ∧
    (MetricsExporter.shutdown (MetricsExporter.shutdown e).2).1 =
      (MetricsExporter.shutdown e).1 :=
  ⟨rfl, rfl⟩

/-- C2 counterexample: for an exporter with an attached worker thread and storage, the
second consecutive `shutdown` call closes the thread and closes the storage again
(`[threadClose, storageClose]`, not the empty action list of a no-op), contradicting
the claimed duplicate-release-free second call. -/
theorem shutdown_second_call_not_noop :
    (MetricsExporter.shutdown (MetricsExporter.shutdown wExRunning).2).1 =
      [ShutdownAction.threadClose, ShutdownAction.storageClose] ∧
    (MetricsExporter.shutdown (MetricsExporter.shutdown wExRunning).2).1 ≠ [] := by
  decide

def isOkB : Except ConfigError MetricsExporter → Bool
  | Except.ok _ => true
  | Except.error _ => false

/-- C4: construction succeeds exactly when the instrumentation key validates and the
maximum batch size is positive — an empty/invalid key or a batch size ≤ 0 raises a
configuration error from the constructor — and every successfully constructed
exporter carries a positive batch size and a validated key, so export-time
operations (which raise only index errors, modelled by `Option`) can never raise a
configuration error. -/
theorem config_errors_fail_fast (is_st : Bool) (opts : Options) :
    (isOkB (MetricsExporter.init is_st opts) = true ↔
      (validate_instrumentation_key opts.instrumentation_key = true ∧
        0 < opts.max_batch_size)) ∧
    (∀ ex, MetricsExporter.init is_st opts = Except.ok ex →
      0 < ex.max_batch_size ∧
      validate_instrumentation_key ex.options.instrumentation_key = true) := by
  unfold MetricsExporter.init
  by_cases h1 : validate_instrumentation_key opts.instrumentation_key = false
  · rw [if_pos h1]
    constructor
    · simp [isOkB, h1]
    · intro ex hex; exact Except.noConfusion hex
  · have h1' : validate_instrumentation_key opts.instrumentation_key = true := by
      cases hb : validate_instrumentation_key opts.instrumentation_key
      · exact absurd hb h1
      · rfl
    rw [if_neg h1]
    by_cases h2 : opts.max_batch_size ≤ 0
    · rw [if_pos h2]
      constructor
      · simp [isOkB, h1']
        omega
      · intro ex hex; exact Except.noConfusion hex
    · rw [if_neg h2]
      constructor
      · simp [isOkB, h1']
        omega
      · intro ex hex
        have he := Except.ok.inj hex
        constructor
        · rw [← he]
          show 0 < opts.max_batch_size
          omega
        · rw [← he]
          exact h1'

/-- Witness for C4: the valid fixture configuration constructs successfully and the
resulting exporter has a positive batch size and a validated key. -/
theorem config_errors_fail_fast_witness :
    0 < wExGood.max_batch_size ∧
    validate_instrumentation_key wExGood.options.instrumentation_key = true :=
  (config_errors_fail_fast false wOptsGood).2 wExGood rfl

/-- C5: for every metric whose descriptor type is a cumulative distribution
(histogram), `metric_to_envelopes` returns the empty envelope list and does not
raise. -/
theorem histogram_yields_no_envelopes (ex : MetricsExporter) (m : Metric)
    (h : m.descriptor.type = MetricDescriptorType.CUMULATIVE_DISTRIBUTION) :
    ex.metric_to_envelopes m = some [] := by
  simp [MetricsExporter.metric_to_envelopes, h]

/-- Witness for C5 on a histogram metric whose series would raise for any other
descriptor type (empty point list). -/
theorem histogram_yields_no_envelopes_witness :
    wExGood.metric_to_envelopes wMetricHist = some [] :=
  histogram_yields_no_envelopes wExGood wMetricHist (by decide)

/-- C7 (amended): under the precondition that the series carries at least as many
label values as the descriptor has label keys AND that the label keys are pairwise
distinct, `_create_properties` succeeds and the returned dict pairs the key at each
index i with the label value at index i, encoding a missing (None) value as the
literal string "null"; with duplicate keys the value written at the last occurrence
of the key wins, so distinctness is exactly what index-wise pairing needs.  Equal
length of the two sequences remains an unvalidated upstream precondition: with fewer
values than keys the call fails with an out-of-range index (`none`). -/
theorem create_properties_positional (md : MetricDescriptor) (ts : TimeSeries)
    (hlen : md.label_keys.length ≤ ts.label_values.length)
    (hnd : (md.label_keys.map LabelKey.key).Nodup) :
    (MetricsExporter.create_properties md ts).isSome = true ∧
    ∀ props, MetricsExporter.create_properties md ts = some props →
      ∀ (i : Nat) (hik : i < md.label_keys.length) (hiv : i < ts.label_values.length),
        dictLookup props (md.label_keys.get ⟨i, hik⟩).key =
          some (match (ts.label_values.get ⟨i, hiv⟩).value with
                | none => "null"
                | some v => v) := by
  refine ⟨createPropertiesGo_some_of_le md.label_keys ts.label_values [] hlen, ?_⟩
  intro props h i hik hiv
  exact createPropertiesGo_lookup_at md.label_keys ts.label_values [] props h hnd
    i hik hiv

/-- C7 counterexample: with duplicate label keys ["a", "a"] and label values
["1", "2"] — which satisfy the claimed length precondition — the returned dict pairs
the key at index 0 ("a") with the value from index 1 ("2"), not with the index-0
value "1": the claimed index-wise pairing fails without a distinctness assumption. -/
theorem create_properties_positional_cex :
    wMd7dup.label_keys.length ≤ wTs7dup.label_values.length ∧
    MetricsExporter.create_properties wMd7dup wTs7dup = some [("a", "2")] ∧
    dictLookup [("a", "2")] "a" ≠ some "1" := by decide

/-- Witness for the amended C7 theorem at distinct keys, including a missing (None)
label value encoded as "null". -/
theorem create_properties_positional_witness :
    dictLookup [("k1", "null"), ("k2", "v")] "k1" = some "null" := by
  have h := (create_properties_positional wMd7 wTs7 (by decide) (by decide)).2
    [("k1", "null"), ("k2", "v")] (by decide) 0 (by decide) (by decide)
  exact h

def wEnv : Envelope :=
  { iKey := "ikey"
    tags := azure_monitor_context
    time := "t"
    name := "Microsoft.ApplicationInsights.Metric"
    data :=
      { baseData := { metrics := [], properties := [] }
        baseType := "MetricData" } }

def wOpts2 : Options :=
  { instrumentation_key := "ikey", export_interval := 15, max_batch_size := 2,
    enable_local_storage := true, minimum_retry_interval := 60 }

def wEx2 : MetricsExporter :=
  { options := wOpts2, is_stats := false, export_interval := 15,
    max_batch_size := 2, storage := true, exporter_thread := false }

def wExStats : MetricsExporter :=
  { options := wOptsGood, is_stats := true, export_interval := 15,
    max_batch_size := 100, storage := true, exporter_thread := false }

def wTsGood : TimeSeries :=
  { label_values := [⟨some "v"⟩]
    points :=
      [{ value := ⟨7⟩, timestamp := ⟨"2020-01-01T00:00:00"⟩ },
       { value := ⟨8⟩, timestamp := ⟨"2020-01-02T00:00:00"⟩ }] }

def wMdGood : MetricDescriptor :=
  { name := "m", type := MetricDescriptorType.GAUGE_INT64, label_keys := [⟨"k"⟩] }

def wMetricGood : Metric :=
  { descriptor := wMdGood, time_series := [wTsGood] }

def wEnvGood : Envelope :=
  { iKey := "ikey"
    tags := azure_monitor_context
    time := "2020-01-01T00:00:00"
    name := "Microsoft.ApplicationInsights.Metric"
    data :=
      { baseData :=
          { metrics := [{ ns := "m", name := "m", value := 7 }]
            properties := [("k", "v")] }
        baseType := "MetricData" } }

def wEnvStats : Envelope :=
  { iKey := "ikey"
    tags := azure_monitor_context
    time := "2020-01-01T00:00:00"
    name := "Statsbeat"
    data :=
      { baseData :=
          { metrics := [{ ns := "m", name := "m", value := 7 }]
            properties := [("k", "v")] }
        baseType := "MetricData" } }

/-- C3: in the per-batch loop of `export_metrics`, a batch is written to the retry
store if and only if local storage is enabled and its transmission outcome is
`RETRY`; every store call uses the configured minimum retry interval and concerns a
transmitted batch; in particular a batch whose outcome is non-retryable is never
stored. -/
theorem retry_store_iff (ex : MetricsExporter) (P : List Envelope → List Envelope)
    (T : List Envelope → TransportStatusCode) (batches : List (List Envelope))
    (b : List Envelope) :
    (∀ r : Int, ExportEvent.store b r ∈ (exportLoop ex P T batches).1 →
      r = ex.options.minimum_retry_interval ∧ ex.storage = true ∧
      T b = TransportStatusCode.RETRY) ∧
    (ExportEvent.store b ex.options.minimum_retry_interval ∈
        (exportLoop ex P T batches).1 ↔
      (ExportEvent.transmit b ∈ (exportLoop ex P T batches).1 ∧
        ex.storage = true ∧ T b = TransportStatusCode.RETRY)) := by
  constructor
  · intro r h
    obtain ⟨hr, hst, hT, _⟩ := exportLoop_store_inv ex P T batches b r h
    exact ⟨hr, hst, hT⟩
  · constructor
    · intro h
      obtain ⟨_, hst, hT, hmem⟩ := exportLoop_store_inv ex P T batches b _ h
      exact ⟨hmem, hst, hT⟩
    · rintro ⟨hmem, hst, hT⟩
      exact exportLoop_retry_is_stored ex P T batches b hmem hst hT

/-- Witness for C3: with storage enabled and a transmit oracle answering `RETRY`,
the transmitted batch is stored with the configured minimum retry interval. -/
theorem retry_store_iff_witness :
    ExportEvent.store [wEnv] wExGood.options.minimum_retry_interval ∈
      (exportLoop wExGood (fun l => l)
        (fun _ => TransportStatusCode.RETRY) [[wEnv]]).1 :=
  (retry_store_iff wExGood (fun l => l) (fun _ => TransportStatusCode.RETRY)
      [[wEnv]] [wEnv]).2.mpr ⟨by decide, rfl, rfl⟩

/-- C6: in an export cycle that is not cut short by the statsbeat-shutdown early
return, the retry-store drain (`_transmit_from_storage`) runs if and only if the
number of freshly gathered envelopes of the cycle is strictly below the configured
maximum batch size. -/
theorem drain_iff_below_batch_size (ex : MetricsExporter)
    (P : List Envelope → List Envelope) (T : List Envelope → TransportStatusCode)
    (metrics : List Metric) (envelopes : List Envelope) (evs : List ExportEvent)
    (hconv : ex.gather_envelopes metrics = some envelopes)
    (hnoearly : (exportLoop ex P T (window envelopes ex.max_batch_size.toNat)).2 = false)
    (hevs : ex.export_metrics P T metrics = some evs) :
    ExportEvent.drainStorage ∈ evs ↔
      (envelopes.length : Int) < ex.options.max_batch_size := by
  unfold MetricsExporter.export_metrics at hevs
  rw [hconv] at hevs
  have hevs2 :
      (match exportLoop ex P T (window envelopes ex.max_batch_size.toNat) with
        | (evs, true) => some evs
        | (evs, false) => some (evs ++
            (if (envelopes.length : Int) < ex.options.max_batch_size then
              [ExportEvent.drainStorage] else []))) = some evs := hevs
  cases hL : exportLoop ex P T (window envelopes ex.max_batch_size.toNat) with
  | mk levs flag =>
    rw [hL] at hevs2 hnoearly
    have hf : flag = false := hnoearly
    subst hf
    have hevs3 : some (levs ++
        (if (envelopes.length : Int) < ex.options.max_batch_size then
          [ExportEvent.drainStorage] else [])) = some evs := hevs2
    have he : evs = levs ++
        (if (envelopes.length : Int) < ex.options.max_batch_size then
          [ExportEvent.drainStorage] else []) := (Option.some.inj hevs3).symm
    have hnd : ExportEvent.drainStorage ∉ levs := by
      have h := exportLoop_no_drain ex P T (window envelopes ex.max_batch_size.toNat)
      rw [hL] at h
      exact h
    rw [he]
    constructor
    · intro hmem
      rcases List.mem_append.mp hmem with h1 | h1
      · exact absurd h1 hnd
      · by_cases hc : (envelopes.length : Int) < ex.options.max_batch_size
        · exact hc
        · rw [if_neg hc] at h1
          exact absurd h1 (List.not_mem_nil _)
    · intro hc
      apply List.mem_append.mpr
      right
      rw [if_pos hc]
      exact List.mem_singleton.mpr rfl

/-- Witness for C6: an empty cycle (0 envelopes, maximum batch size 2) drains the
retry store. -/
theorem drain_iff_below_batch_size_witness :
    ExportEvent.drainStorage ∈ [ExportEvent.drainStorage] ↔
      ((([] : List Envelope).length : Int) < wEx2.options.max_batch_size) :=
  drain_iff_below_batch_size wEx2 (fun l => l)
    (fun _ => TransportStatusCode.SUCCESS) [] [] [ExportEvent.drainStorage]
    rfl rfl rfl

/-- C8: when the exporter is the statsbeat instance and transmitting some batch
returns the shutdown status (no earlier batch of the cycle having done so),
`export_metrics` shuts down the statsbeat pipeline and returns immediately: the
events are exactly those of the earlier batches followed by the triggering transmit
and the statsbeat shutdown, no further batch is transmitted (the transmit count is
the number of earlier batches plus one), and the retry-store drain is skipped. -/
theorem statsbeat_shutdown_halts_cycle (ex : MetricsExporter)
    (P : List Envelope → List Envelope) (T : List Envelope → TransportStatusCode)
    (metrics : List Metric) (envelopes : List Envelope)
    (pre post : List (List Envelope)) (b : List Envelope) (evs : List ExportEvent)
    (hstats : ex.is_stats_exporter = true)
    (hconv : ex.gather_envelopes metrics = some envelopes)
    (hwin : window envelopes ex.max_batch_size.toNat = pre ++ b :: post)
    (hpre : ∀ b' ∈ pre, T (P b') ≠ TransportStatusCode.STATSBEAT_SHUTDOWN)
    (hb : T (P b) = TransportStatusCode.STATSBEAT_SHUTDOWN)
    (hevs : ex.export_metrics P T metrics = some evs) :
    evs = (exportLoop ex P T pre).1 ++
      [ExportEvent.transmit (P b), ExportEvent.statsbeatShutdown] ∧
    ExportEvent.drainStorage ∉ evs ∧
    evs.countP ExportEvent.isTransmit = pre.length + 1 := by
  have hloop := exportLoop_early_of_trigger ex P T hstats pre b post hpre hb
  unfold MetricsExporter.export_metrics at hevs
  rw [hconv] at hevs
  have hevs2 :
      (match exportLoop ex P T (window envelopes ex.max_batch_size.toNat) with
        | (evs, true) => some evs
        | (evs, false) => some (evs ++
            (if (envelopes.length : Int) < ex.options.max_batch_size then
              [ExportEvent.drainStorage] else []))) = some evs := hevs
  rw [hwin, hloop] at hevs2
  have hevs3 : some ((exportLoop ex P T pre).1 ++
      [ExportEvent.transmit (P b), ExportEvent.statsbeatShutdown]) = some evs := hevs2
  have he : evs = (exportLoop ex P T pre).1 ++
      [ExportEvent.transmit (P b), ExportEvent.statsbeatShutdown] :=
    (Option.some.inj hevs3).symm
  refine ⟨he, ?_, ?_⟩
  · rw [he]
    intro hmem
    rcases List.mem_append.mp hmem with h1 | h1
    · exact exportLoop_no_drain ex P T pre h1
    · rcases List.mem_cons.mp h1 with h2 | h2
      · exact ExportEvent.noConfusion h2
      · exact ExportEvent.noConfusion (List.mem_singleton.mp h2)
  · rw [he, List.countP_append]
    have hpre' : ∀ b' ∈ pre, ¬(ex.is_stats_exporter = true ∧
        T (P b') = TransportStatusCode.STATSBEAT_SHUTDOWN) :=
      fun b' hb' hc => hpre b' hb' hc.2
    rw [(exportLoop_no_trigger ex P T pre hpre').2]
    simp [List.countP_cons, ExportEvent.isTransmit]

/-- Witness for C8: a statsbeat exporter whose single batch draws the shutdown
status transmits exactly that one batch. -/
theorem statsbeat_shutdown_halts_cycle_witness :
    ([ExportEvent.transmit [wEnvStats], ExportEvent.statsbeatShutdown] :
        List ExportEvent).countP ExportEvent.isTransmit = 0 + 1 := by
  have h := statsbeat_shutdown_halts_cycle wExStats (fun l => l)
    (fun _ => TransportStatusCode.STATSBEAT_SHUTDOWN) [wMetricGood] [wEnvStats]
    [] [] [wEnvStats]
    [ExportEvent.transmit [wEnvStats], ExportEvent.statsbeatShutdown]
    rfl (by decide) (by decide)
    (fun b' hb' => absurd hb' (List.not_mem_nil b')) rfl (by decide)
  exact h.2.2

/-- C9: every envelope produced by the converter carries as its `time` field the ISO
rendering of the timestamp of the first recorded point of its originating time
series — the original measurement time, never the time of conversion or
transmission. -/
theorem envelope_time_is_measurement_time (ex : MetricsExporter) (m : Metric)
    (envs : List Envelope) (e : Envelope)
    (h : ex.metric_to_envelopes m = some envs) (he : e ∈ envs) :
    ∃ ts ∈ m.time_series, ∃ p, ts.points.head? = some p ∧
      e.time = p.timestamp.isoformat := by
  unfold MetricsExporter.metric_to_envelopes at h
  by_cases htype : m.descriptor.type ≠ MetricDescriptorType.CUMULATIVE_DISTRIBUTION
  · rw [if_pos htype] at h
    exact envelopes_of_series_list_time ex m.descriptor m.time_series envs h e he
  · rw [if_neg htype] at h
    have hnil : envs = [] := (Option.some.inj h).symm
    subst hnil
    exact absurd he (List.not_mem_nil e)

/-- Witness for C9: the envelope converted from the fixture metric carries the
timestamp of the first recorded point of its series. -/
theorem envelope_time_is_measurement_time_witness :
    wEnvGood.time = "2020-01-01T00:00:00" := by
  obtain ⟨ts, hts, p, hp, ht⟩ := envelope_time_is_measurement_time wExGood
    wMetricGood [wEnvGood] wEnvGood (by decide) (List.mem_singleton.mpr rfl)
  have hts2 : ts ∈ [wTsGood] := hts
  have hts3 : ts = wTsGood := List.mem_singleton.mp hts2
  subst hts3
  have hp2 : (some { value := ⟨7⟩, timestamp := ⟨"2020-01-01T00:00:00"⟩ } :
      Option Point) = some p := hp
  have hp3 := Option.some.inj hp2
  rw [ht, ← hp3]
  rfl

/-- C10: for a metric whose descriptor type is not a cumulative distribution, a
successful conversion yields exactly one envelope per time series, whose data point
and timestamp come from only the first point of that series (later points are
ignored); and a series with an empty point list makes the whole conversion fail
with an out-of-range index (`none`), so non-emptiness of every series' point list
is a precondition for totality. -/
theorem one_envelope_per_series_from_first_point (ex : MetricsExporter) (m : Metric)
    (htype : m.descriptor.type ≠ MetricDescriptorType.CUMULATIVE_DISTRIBUTION) :
    (∀ envs, ex.metric_to_envelopes m = some envs →
      envs.length = m.time_series.length ∧
      ∀ (i : Nat) (hi : i < m.time_series.length) (hi' : i < envs.length),
        ∃ p, (m.time_series.get ⟨i, hi⟩).points.head? = some p ∧
          (envs.get ⟨i, hi'⟩).time = p.timestamp.isoformat ∧
          (envs.get ⟨i, hi'⟩).data.baseData.metrics =
            [{ ns := m.descriptor.name, name := m.descriptor.name,
               value := p.value.value }]) ∧
    ((∃ ts ∈ m.time_series, ts.points = []) → ex.metric_to_envelopes m = none) := by
  constructor
  · intro envs h
    unfold MetricsExporter.metric_to_envelopes at h
    rw [if_pos htype] at h
    exact envelopes_of_series_list_spec ex m.descriptor m.time_series envs h
  · intro hex
    unfold MetricsExporter.metric_to_envelopes
    rw [if_pos htype]
    exact envelopes_of_series_list_none ex m.descriptor m.time_series hex

/-- Witness for C10: the fixture metric with one series converts to exactly one
envelope. -/
theorem one_envelope_per_series_from_first_point_witness :
    ([wEnvGood] : List Envelope).length = wMetricGood.time_series.length :=
  ((one_envelope_per_series_from_first_point wExGood wMetricGood (by decide)).1
    [wEnvGood] (by decide)).1

end Azure
